import Mathlib

/-!
# Verification of the trip-tracking dashboard core

A shallow embedding, in Lean 4, of the CSV-upload pipeline
(`src/components/TripUploader.tsx`, function `onDrop`) and the trip-list
view state machine (`src/components/TripList.tsx`: filtering, sorting,
selection, deletion) of the `monitoreo` repository, together with proofs
of the behavioural properties claimed about them.

JavaScript values are modelled as follows: strings are Lean `String`
(with `toLowerCase` as character-wise `Char.toLower` and `includes` as a
substring check defined below), `Set` objects of trip ids are
`Finset String`, JS objects built from header/value pairs are association
lists with last-write-wins lookup, a thrown exception is the `Except`
error branch, and `undefined`-propagation through optional chaining is
`Option`.
-/

/-- A trip record, as stored in the `trips` table and rendered by
`TripList` (`src/types/database.ts` is not among the provided sources;
the field inventory follows the fields actually read by the provided
components and the spec's data model). -/
structure Trip where
  id : String
  system_trip_id : String
  external_trip_id : Option String
  delivery_date : String
  driver_name : String
  origin : String
  destination : String
  project : String
  plate_number : String
  property_type : String
  work_shift : String
deriving DecidableEq, Repr

/-- A trip update record: a status event attached to a trip. Lists of
updates are kept most-recent-first, mirroring the backend query
`order('created_at', { ascending: false })` in `loadTripUpdates`. -/
structure TripUpdate where
  trip_id : String
  category : String
  created_at : String
deriving DecidableEq, Repr

/-! ## JS string primitives

`String.prototype.split` with a one-character separator and
`String.prototype.trim`, implemented by structural recursion over the
character list so that concrete instances reduce. -/

/-- Split a character list at every occurrence of `sep`. Matches JS
`split`: the result is always nonempty, and `''.split(sep)` is
`['']`. -/
def splitChar (sep : Char) : List Char → List (List Char)
  | [] => [[]]
  | c :: cs =>
    match splitChar sep cs with
    | [] => [[c]]
    | h :: t => if c = sep then [] :: h :: t else (c :: h) :: t

/-- The whitespace characters relevant to the CSV inputs; JS `trim`
strips a larger Unicode class, which agrees with this one on the data
this application handles. -/
def isWs (c : Char) : Bool := c = ' ' || c = '\t' || c = '\n' || c = '\r'

/-- Strip whitespace from both ends of a character list. -/
def trimChars (l : List Char) : List Char :=
  ((l.dropWhile isWs).reverse.dropWhile isWs).reverse

/-- JS `s.split(sep)` for a one-character separator. -/
def jsSplit (s : String) (sep : Char) : List String :=
  (splitChar sep s.data).map (fun l => ⟨l⟩)

/-- JS `s.trim()`. -/
def jsTrim (s : String) : String := ⟨trimChars s.data⟩

/-! ## CSV upload pipeline (`TripUploader.tsx`, `onDrop`) -/

/-- `text.split('\n').map(row => row.split(','))` (line 32 of the
uploader): the raw rows of the file, each split on commas. -/
def csvRows (text : String) : List (List String) :=
  (jsSplit text '\n').map (fun row => jsSplit row ',')

/-- `rows[0].map(header => header.trim())` (line 33): the trimmed header
row. `split` always returns a nonempty list, so `rows[0]` is total;
`headD` makes that explicit. -/
def csvHeaders (text : String) : List String :=
  ((csvRows text).headD []).map jsTrim

/-- The data rows that survive the column-count filter
(`rows.slice(1).filter(row => row.length === headers.length)`,
lines 35-36) and are therefore handed to the parser. -/
def rowsReachingParser (text : String) : List (List String) :=
  ((csvRows text).drop 1).filter
    (fun row => row.length == (csvHeaders text).length)

/-- The `tripData` object built at lines 38-41:
`headers.forEach((header, index) => tripData[header] = row[index].trim())`.
An association list in index order; a JS object lookup returns the last
write, which `dictGet` reproduces by searching the reversed list. `zip`
truncates at the shorter list, which agrees with the code on every row
that reaches it (the filter guarantees equal lengths). -/
def buildTripData (headers row : List String) : List (String × String) :=
  headers.zip (row.map jsTrim)

/-- Last-write-wins lookup in a `tripData` association list, matching
JS object-key semantics. -/
def dictGet (d : List (String × String)) (k : String) : Option String :=
  (d.reverse.find? (fun p => p.1 == k)).map (fun p => p.2)

/-- The error thrown by the row parser when a required field is missing
or empty; carries the offending column name. -/
structure ValidationError where
  field : String
deriving DecidableEq, Repr

/-- A trip record as produced by the CSV row parser, before the backend
assigns an `id`: the eight required columns projected into typed
fields. -/
structure CsvTrip where
  system_trip_id : String
  delivery_date : String
  driver_name : String
  destination : String
  project : String
  plate_number : String
  property_type : String
  work_shift : String
deriving DecidableEq, Repr

/-- Read one required field of a `tripData` object: fails when the key
is absent or its value is empty after trimming. -/
def reqField (d : List (String × String)) (k : String) :
    Except ValidationError String :=
  match dictGet d k with
  | none => .error ⟨k⟩
  | some v => if jsTrim v = "" then .error ⟨k⟩ else .ok v

/-- Modelled from the spec: the parser `parseTripFromCSV` lives in
`src/utils/tripParser.ts`, which is not among the provided sources. Per
the spec (§4.1) it maps a header-keyed row dictionary to a trip record,
projecting the required columns `ID_Viaje`, `FECHA DE ENTREGA`,
`NOMBRE CONDUCTOR`, `DESTINO`, `PROYECTO`, `PLACA`, `PROPIEDAD`,
`JORNADA`, and fails with a `ValidationError` when a required field is
missing or empty after trimming; it is a pure transformation with no
side effects. Optional fields (`external_trip_id`, `origin`) have no
specified source column and are omitted here; no claim depends on
them. -/
def parseTripFromCSV (d : List (String × String)) :
    Except ValidationError CsvTrip := do
  let sid ← reqField d "ID_Viaje"
  let dd ← reqField d "FECHA DE ENTREGA"
  let dn ← reqField d "NOMBRE CONDUCTOR"
  let dest ← reqField d "DESTINO"
  let proj ← reqField d "PROYECTO"
  let plate ← reqField d "PLACA"
  let pt ← reqField d "PROPIEDAD"
  let ws ← reqField d "JORNADA"
  return { system_trip_id := sid, delivery_date := dd, driver_name := dn,
           destination := dest, project := proj, plate_number := plate,
           property_type := pt, work_shift := ws }

/-- A JS `Array.prototype.map` whose callback may throw: the first
exception aborts the whole traversal and propagates. -/
def mapExcept {α β ε : Type} (f : α → Except ε β) :
    List α → Except ε (List β)
  | [] => .ok []
  | a :: as =>
    match f a with
    | .error e => .error e
    | .ok b =>
      match mapExcept f as with
      | .error e => .error e
      | .ok bs => .ok (b :: bs)

/-- Lines 35-43 of the uploader: the filtered data rows are mapped
through the parser. The `.map` callback has no try/catch, so a thrown
`ValidationError` propagates and aborts the whole mapping; `mapExcept`
models exactly that (first error wins). -/
def parseCSVTrips (text : String) : Except ValidationError (List CsvTrip) :=
  mapExcept
    (fun row => parseTripFromCSV (buildTripData (csvHeaders text) row))
    (rowsReachingParser text)

/-- The ways an upload can fail: a propagated row-validation error, the
explicit `'No se encontraron viajes válidos en el archivo CSV'` throw at
line 46, or a backend insert error. -/
inductive UploadError where
  | validation (e : ValidationError)
  | emptyFile
  | backend
deriving DecidableEq, Repr

/-- Lines 31-53 of `onDrop` after file reading: parse, reject an empty
batch, then insert. `backendOk` abstracts the result of the
`supabase.from('trips').insert(trips)` call; the success value is the
batch of trips that was inserted. -/
def processUpload (text : String) (backendOk : Bool) :
    Except UploadError (List CsvTrip) :=
  match parseCSVTrips text with
  | .error e => .error (.validation e)
  | .ok trips =>
      if trips.length = 0 then .error .emptyFile
      else if backendOk then .ok trips else .error .backend

/-- The batch handed to the backend insert call, when control reaches
line 49: `some trips` exactly when parsing succeeded with a nonempty
batch, `none` when the upload aborted before the insert. -/
def sentToBackend (text : String) : Option (List CsvTrip) :=
  match parseCSVTrips text with
  | .error _ => none
  | .ok trips => if trips.length = 0 then none else some trips

/-! ### Helper lemmas on the upload pipeline -/

theorem mapExcept_ok_forall {α β ε : Type} (f : α → Except ε β)
    (l : List α) (r : List β) (h : mapExcept f l = .ok r) :
    ∀ x ∈ l, ∃ y, f x = .ok y := by
  induction l generalizing r with
  | nil => intro x hx; cases hx
  | cons a as ih =>
    intro x hx
    unfold mapExcept at h
    cases hfa : f a with
    | error e => rw [hfa] at h; cases h
    | ok y =>
      rw [hfa] at h
      cases hrest : mapExcept f as with
      | error e => rw [hrest] at h; cases h
      | ok ys =>
        rw [hrest] at h
        cases hx with
        | head => exact ⟨y, hfa⟩
        | tail _ hmem => exact ih ys hrest x hmem

theorem mapExcept_error_of_mem {α β ε : Type} (f : α → Except ε β)
    (l : List α) (x : α) (e : ε) (hx : x ∈ l) (hfx : f x = .error e) :
    ∀ r, mapExcept f l ≠ .ok r := by
  intro r h
  obtain ⟨y, hy⟩ := mapExcept_ok_forall f l r h x hx
  rw [hfx] at hy
  cases hy

/-! ### Concrete CSV fixtures used by witnesses and counterexamples -/

set_option maxRecDepth 100000

/-- The required header line of the CSV input format. -/
def csvHeaderLine : String :=
  "ID_Viaje,FECHA DE ENTREGA,NOMBRE CONDUCTOR,DESTINO,PROYECTO,PLACA,PROPIEDAD,JORNADA"

/-- A data row on which every required field is present and nonempty. -/
def csvGoodRow : String := "T1,2024-01-01,Juan,CityB,ProjX,ABC123,Own,Day"

/-- A data row with the correct number of columns whose `ID_Viaje`
field is empty, so it fails required-field validation. -/
def csvBadRow : String := ",2024-01-02,Ana,CityC,ProjY,XYZ789,Own,Night"

/-- A file with one valid row and one validation-failing row. -/
def csvMixedFile : String := csvHeaderLine ++ "\n" ++ csvGoodRow ++ "\n" ++ csvBadRow

/-- The trip record the parser produces from `csvGoodRow`. -/
def csvGoodTrip : CsvTrip :=
  { system_trip_id := "T1", delivery_date := "2024-01-01", driver_name := "Juan",
    destination := "CityB", project := "ProjX", plate_number := "ABC123",
    property_type := "Own", work_shift := "Day" }

/-! ### Claims C1-C3: the upload pipeline -/

/-- C1 (counterexample): in `csvMixedFile` both data rows pass the
column-count check, the first parses to a trip record and the second
fails required-field validation (`ID_Viaje` empty) — yet the upload
does not proceed with the valid row: it fails with the propagated
validation error and nothing is sent to the backend, refuting the
claim that a validation-failing row is merely excluded while the
upload proceeds. -/
theorem c1_upload_counterexample :
    rowsReachingParser csvMixedFile =
      [["T1", "2024-01-01", "Juan", "CityB", "ProjX", "ABC123", "Own", "Day"],
       ["", "2024-01-02", "Ana", "CityC", "ProjY", "XYZ789", "Own", "Night"]] ∧
    parseTripFromCSV (buildTripData (csvHeaders csvMixedFile)
      ["T1", "2024-01-01", "Juan", "CityB", "ProjX", "ABC123", "Own", "Day"]) =
      .ok csvGoodTrip ∧
    parseTripFromCSV (buildTripData (csvHeaders csvMixedFile)
      ["", "2024-01-02", "Ana", "CityC", "ProjY", "XYZ789", "Own", "Night"]) =
      .error ⟨"ID_Viaje"⟩ ∧
    processUpload csvMixedFile true = .error (.validation ⟨"ID_Viaje"⟩) ∧
    sentToBackend csvMixedFile = none :=
  ⟨rfl, rfl, rfl, rfl, rfl⟩

/-- C1 (amended): a CSV row that passes the column-count check but
fails required-field validation is not excluded from the batch; the
`ValidationError` thrown inside the un-guarded `.map` callback
propagates and aborts the entire upload, so no batch (valid rows
included) is ever sent to the backend whenever any such row exists —
not only when every row is excluded. -/
theorem c1_invalid_row_aborts_upload (text : String) (row : List String)
    (e : ValidationError) (hmem : row ∈ rowsReachingParser text)
    (herr : parseTripFromCSV (buildTripData (csvHeaders text) row) = .error e) :
    (∀ b l, processUpload text b ≠ .ok l) ∧ sentToBackend text = none := by
  have hnotok : ∀ r, parseCSVTrips text ≠ .ok r :=
    mapExcept_error_of_mem _ _ row e hmem herr
  have hform : ∃ e', parseCSVTrips text = .error e' := by
    cases hp : parseCSVTrips text with
    | error e' => exact ⟨e', rfl⟩
    | ok r => exact absurd hp (hnotok r)
  obtain ⟨e', he'⟩ := hform
  constructor
  · intro b l h
    unfold processUpload at h
    rw [he'] at h
    cases h
  · unfold sentToBackend
    rw [he']

/-- C1 (amended, witness): instantiated on `csvMixedFile` and its
validation-failing second row. -/
theorem c1_invalid_row_aborts_upload_witness :
    (∀ b l, processUpload csvMixedFile b ≠ .ok l) ∧
    sentToBackend csvMixedFile = none :=
  c1_invalid_row_aborts_upload csvMixedFile
    ["", "2024-01-02", "Ana", "CityC", "ProjY", "XYZ789", "Own", "Night"]
    ⟨"ID_Viaje"⟩ (by decide) rfl

/-- C2: when zero valid trip records result from a file (the parsed
batch is empty, as happens for a header-only file), the upload fails
with the dedicated empty-file error and nothing is handed to the
backend insert call. -/
theorem c2_zero_valid_rows_aborts (text : String) (b : Bool)
    (hzero : parseCSVTrips text = .ok []) :
    processUpload text b = .error .emptyFile ∧ sentToBackend text = none := by
  constructor
  · unfold processUpload
    rw [hzero]
    rfl
  · unfold sentToBackend
    rw [hzero]
    rfl

/-- C2 (witness): a CSV consisting of the header row only parses to an
empty batch, and the upload aborts with the empty-file error. -/
theorem c2_zero_valid_rows_aborts_witness :
    processUpload csvHeaderLine true = .error .emptyFile ∧
    sentToBackend csvHeaderLine = none :=
  c2_zero_valid_rows_aborts csvHeaderLine true rfl

/-- C3: `row.length == headers.length` is a necessary condition for a
data row to reach the parser — every row handed to
`parseTripFromCSV` has exactly as many fields as the header row. -/
theorem c3_column_count_necessary (text : String) (row : List String)
    (h : row ∈ rowsReachingParser text) :
    row.length = (csvHeaders text).length := by
  unfold rowsReachingParser at h
  have := List.of_mem_filter h
  exact beq_iff_eq.mp this

/-- C3 (witness): instantiated on the valid row of `csvMixedFile`. -/
theorem c3_column_count_necessary_witness :
    (["T1", "2024-01-01", "Juan", "CityB", "ProjX", "ABC123", "Own", "Day"] :
      List String).length = (csvHeaders csvMixedFile).length :=
  c3_column_count_necessary csvMixedFile
    ["T1", "2024-01-01", "Juan", "CityB", "ProjX", "ABC123", "Own", "Day"]
    (by decide)

/-! ## The trip list view (`TripList.tsx`)

### JS string search primitives

`toLowerCase` and `includes`, with a correctness proof relating
`includes` to the substring relation. -/

/-- JS `s.toLowerCase()`, character-wise. -/
def toLowerStr (s : String) : String := ⟨s.data.map Char.toLower⟩

/-- Does `hay` start with `needle`? -/
def charsLead (needle hay : List Char) : Bool :=
  match needle, hay with
  | [], _ => true
  | _ :: _, [] => false
  | a :: as, b :: bs => a == b && charsLead as bs

/-- Does `needle` occur contiguously somewhere in `hay`? -/
def charsHave (needle : List Char) : List Char → Bool
  | [] => needle.isEmpty
  | c :: t => charsLead needle (c :: t) || charsHave needle t

/-- JS `hay.includes(needle)`. -/
def strIncludes (hay needle : String) : Bool := charsHave needle.data hay.data

/-- `needle` is a contiguous substring of `hay`. -/
def IsSubstrOf (needle hay : String) : Prop :=
  ∃ p q, hay.data = p ++ needle.data ++ q

theorem charsLead_iff (needle hay : List Char) :
    charsLead needle hay = true ↔ ∃ q, hay = needle ++ q := by
  induction needle generalizing hay with
  | nil => simp [charsLead]
  | cons a as ih =>
    cases hay with
    | nil =>
      simp only [charsLead]
      constructor
      · intro h; cases h
      · rintro ⟨q, hq⟩; cases hq
    | cons b bs =>
      simp only [charsLead, Bool.and_eq_true, beq_iff_eq, ih]
      constructor
      · rintro ⟨rfl, q, rfl⟩; exact ⟨q, rfl⟩
      · rintro ⟨q, hq⟩
        injection hq with h1 h2
        exact ⟨h1.symm, q, h2⟩

theorem charsHave_iff (needle hay : List Char) :
    charsHave needle hay = true ↔ ∃ p q, hay = p ++ needle ++ q := by
  induction hay with
  | nil =>
    simp only [charsHave, List.isEmpty_iff]
    constructor
    · rintro rfl; exact ⟨[], [], rfl⟩
    · rintro ⟨p, q, hpq⟩
      rcases List.append_eq_nil.mp (List.append_eq_nil.mp hpq.symm).1 with ⟨_, h⟩
      exact h
  | cons c t ih =>
    simp only [charsHave, Bool.or_eq_true, charsLead_iff, ih]
    constructor
    · rintro (⟨q, hq⟩ | ⟨p, q, hpq⟩)
      · exact ⟨[], q, by simpa using hq⟩
      · exact ⟨c :: p, q, by simp [hpq]⟩
    · rintro ⟨p, q, hpq⟩
      cases p with
      | nil => exact Or.inl ⟨q, by simpa using hpq⟩
      | cons x xs =>
        injection hpq with h1 h2
        exact Or.inr ⟨xs, q, h2⟩

theorem strIncludes_iff (hay needle : String) :
    strIncludes hay needle = true ↔ IsSubstrOf needle hay :=
  charsHave_iff needle.data hay.data

/-! ### The filter stages (`filteredTrips`, lines 197-206) -/

/-- The search clause of the filter predicate (lines 198-201):
`trip.system_trip_id.toLowerCase().includes(search.toLowerCase()) ||
(trip.external_trip_id?.toLowerCase() || '').includes(...) ||
trip.driver_name.toLowerCase().includes(...)`. An absent
`external_trip_id` short-circuits the optional chain to `undefined`,
which `|| ''` turns into the empty string. -/
def matchesSearch (trip : Trip) (search : String) : Bool :=
  strIncludes (toLowerStr trip.system_trip_id) (toLowerStr search) ||
  strIncludes ((trip.external_trip_id.map toLowerStr).getD "") (toLowerStr search) ||
  strIncludes (toLowerStr trip.driver_name) (toLowerStr search)

/-- The status clause (line 202):
`statusFilter === 'all' || tripUpdates[trip.id]?.[0]?.category === statusFilter`.
The per-trip update lists are most-recent-first, so element 0 is the
most recent update; a missing key or empty list propagates `undefined`,
and `undefined === statusFilter` is false for every string filter. -/
def matchesStatus (updates : String → List TripUpdate) (statusFilter : String)
    (trip : Trip) : Bool :=
  statusFilter == "all" ||
    (match (updates trip.id).head? with
     | some u => u.category == statusFilter
     | none => false)

/-- The project clause (line 203):
`projectFilter === 'all' || trip.project === projectFilter`. -/
def matchesProject (projectFilter : String) (trip : Trip) : Bool :=
  projectFilter == "all" || trip.project == projectFilter

/-- `filteredTrips` (lines 197-206): keep the trips satisfying all
three clauses. -/
def filteredTrips (trips : List Trip) (updates : String → List TripUpdate)
    (search statusFilter projectFilter : String) : List Trip :=
  trips.filter (fun trip =>
    matchesSearch trip search && matchesProject projectFilter trip &&
      matchesStatus updates statusFilter trip)

/-! ### Concrete trip fixtures used by witnesses -/

/-- A trip on project `ProjX` driven by Juan, with no external id. -/
def tripA : Trip :=
  { id := "1", system_trip_id := "T1", external_trip_id := none,
    delivery_date := "2024-01-01", driver_name := "Juan", origin := "CityA",
    destination := "CityB", project := "ProjX", plate_number := "ABC123",
    property_type := "Own", work_shift := "Day" }

/-- A trip on project `ProjY` driven by Maria. -/
def tripB : Trip :=
  { id := "2", system_trip_id := "T2", external_trip_id := some "EXT9",
    delivery_date := "2024-02-01", driver_name := "Maria", origin := "CityA",
    destination := "CityC", project := "ProjY", plate_number := "XYZ789",
    property_type := "Leased", work_shift := "Night" }

/-- A third trip on project `ProjX` driven by Pedro. -/
def tripC : Trip :=
  { id := "3", system_trip_id := "T3", external_trip_id := none,
    delivery_date := "2024-03-01", driver_name := "Pedro", origin := "CityB",
    destination := "CityD", project := "ProjX", plate_number := "DEF456",
    property_type := "Own", work_shift := "Day" }

/-- A fourth trip, used by the range-selection scenario. -/
def tripD : Trip :=
  { id := "4", system_trip_id := "T4", external_trip_id := none,
    delivery_date := "2024-04-01", driver_name := "Lucia", origin := "CityC",
    destination := "CityD", project := "ProjZ", plate_number := "GHI789",
    property_type := "Own", work_shift := "Night" }

/-- An update map giving trip `"1"` two updates (most recent first,
category `"delayed"`) and every other trip none. -/
def updatesA : String → List TripUpdate := fun id =>
  if id = "1" then
    [{ trip_id := "1", category := "delayed", created_at := "2024-01-03" },
     { trip_id := "1", category := "ok", created_at := "2024-01-02" }]
  else []

/-! ### Claims C6 and C7: the filter stages -/

/-- C6: the search-filter clause keeps a trip if and only if the
search term is — after lowercasing both sides, the code's rendering of
case-insensitivity — a substring of the trip's `system_trip_id`, of
its `external_trip_id` (the empty string when absent), or of its
`driver_name`. -/
theorem c6_search_filter (trip : Trip) (search : String) :
    matchesSearch trip search = true ↔
      (IsSubstrOf (toLowerStr search) (toLowerStr trip.system_trip_id) ∨
       IsSubstrOf (toLowerStr search)
         (toLowerStr (trip.external_trip_id.getD "")) ∨
       IsSubstrOf (toLowerStr search) (toLowerStr trip.driver_name)) := by
  have hext : (trip.external_trip_id.map toLowerStr).getD "" =
      toLowerStr (trip.external_trip_id.getD "") := by
    cases trip.external_trip_id with
    | none => rfl
    | some v => rfl
  unfold matchesSearch
  rw [hext]
  simp only [Bool.or_eq_true, strIncludes_iff]
  exact or_assoc

/-- C6 (witness): the term `"jua"` matches `tripA` through its driver
name `"Juan"`. -/
theorem c6_search_filter_witness :
    IsSubstrOf (toLowerStr "jua") (toLowerStr tripA.system_trip_id) ∨
    IsSubstrOf (toLowerStr "jua")
      (toLowerStr (tripA.external_trip_id.getD "")) ∨
    IsSubstrOf (toLowerStr "jua") (toLowerStr tripA.driver_name) :=
  (c6_search_filter tripA "jua").mp (by decide)

/-- C7: the status-filter clause keeps a trip if and only if the
filter is the sentinel `"all"` or equals the category of the trip's
most recent update (the head of its most-recent-first update list);
and a trip with no updates is never kept by a concrete filter. -/
theorem c7_status_filter (updates : String → List TripUpdate)
    (f : String) (trip : Trip) :
    (matchesStatus updates f trip = true ↔
      f = "all" ∨
        ∃ u, (updates trip.id).head? = some u ∧ u.category = f) ∧
    (updates trip.id = [] → f ≠ "all" →
      matchesStatus updates f trip = false) := by
  constructor
  · unfold matchesStatus
    cases h : (updates trip.id).head? with
    | none => simp [h]
    | some u =>
      simp only [h, Bool.or_eq_true, beq_iff_eq, Option.some.injEq]
      constructor
      · rintro (rfl | hcat)
        · exact Or.inl rfl
        · exact Or.inr ⟨u, rfl, hcat⟩
      · rintro (rfl | ⟨u', rfl, hcat⟩)
        · exact Or.inl rfl
        · exact Or.inr hcat
  · intro hnil hne
    unfold matchesStatus
    rw [hnil]
    simp [hne]

/-- C7 (witness): with filter `"delayed"`, `tripA` (whose most recent
update has category `"delayed"`) is kept and the update-less `tripB`
is not. -/
theorem c7_status_filter_witness :
    matchesStatus updatesA "delayed" tripA = true ∧
    matchesStatus updatesA "delayed" tripB = false :=
  ⟨(c7_status_filter updatesA "delayed" tripA).1.mpr
      (Or.inr ⟨{ trip_id := "1", category := "delayed",
                 created_at := "2024-01-03" }, by decide, rfl⟩),
   (c7_status_filter updatesA "delayed" tripB).2 (by decide) (by decide)⟩

/-! ### Sorting (`sortTrips`) and the sorted view -/

/-- Insert `x` into `l` before the first element `y` with `le x y`;
the building block of a stable insertion sort. -/
def insertLE {α : Type} (le : α → α → Bool) (x : α) : List α → List α
  | [] => [x]
  | y :: ys => if le x y then x :: y :: ys else y :: insertLE le x ys

/-- Stable insertion sort by a boolean comparison. -/
def sortByLE {α : Type} (le : α → α → Bool) : List α → List α
  | [] => []
  | x :: xs => insertLE le x (sortByLE le xs)

theorem insertLE_perm {α : Type} (le : α → α → Bool) (x : α) (l : List α) :
    (insertLE le x l).Perm (x :: l) := by
  induction l with
  | nil => rfl
  | cons y ys ih =>
    unfold insertLE
    by_cases h : le x y = true
    · rw [if_pos h]
    · rw [if_neg h]
      exact (ih.cons y).trans (List.Perm.swap x y ys)

theorem sortByLE_perm {α : Type} (le : α → α → Bool) (l : List α) :
    (sortByLE le l).Perm l := by
  induction l with
  | nil => rfl
  | cons x xs ih => exact (insertLE_perm le x (sortByLE le xs)).trans (ih.cons x)

/-- The sort direction field of the sort configuration
(`'asc' | 'desc'`). -/
inductive SortDirection where
  | asc
  | desc
deriving DecidableEq, Repr

/-- The `SortConfig` state (`src/types/sorting.ts` is not among the
provided sources; the shape follows its uses in `TripList.tsx`):
initially `{ field: null, direction: 'asc' }`. -/
structure SortConfig where
  field : Option String
  direction : SortDirection
deriving DecidableEq, Repr

/-- Modelled from the spec: the sort key for each sortable field named
by the `SortableHeader` elements of `TripList.tsx` (`trip_id`,
`delivery_date`, `plate_number`, `driver_name`, `project`,
`status_category`, `last_update`); the status and last-update keys come
from the trip's most recent update, empty when it has none. -/
def sortKey (updates : String → List TripUpdate) (field : String)
    (t : Trip) : String :=
  match field with
  | "trip_id" => t.system_trip_id
  | "delivery_date" => t.delivery_date
  | "plate_number" => t.plate_number
  | "driver_name" => t.driver_name
  | "project" => t.project
  | "status_category" =>
      (((updates t.id).head?).map (fun u => u.category)).getD ""
  | "last_update" =>
      (((updates t.id).head?).map (fun u => u.created_at)).getD ""
  | _ => ""

/-- Key comparison in the configured direction. -/
def sortLEb (updates : String → List TripUpdate) (field : String)
    (dir : SortDirection) (a b : Trip) : Bool :=
  match dir with
  | .asc => decide (sortKey updates field a ≤ sortKey updates field b)
  | .desc => decide (sortKey updates field b ≤ sortKey updates field a)

/-- Modelled from the spec: `sortTrips` lives in `src/utils/sorting.ts`,
which is not among the provided sources. Per the spec (§4.2 stage 4) it
stably orders the filtered trips by the selected field in the selected
direction and leaves the list as loaded when no sort field is chosen. -/
def sortTrips (trips : List Trip) (cfg : SortConfig)
    (updates : String → List TripUpdate) : List Trip :=
  match cfg.field with
  | none => trips
  | some f => sortByLE (sortLEb updates f cfg.direction) trips

theorem sortTrips_perm (trips : List Trip) (cfg : SortConfig)
    (updates : String → List TripUpdate) :
    (sortTrips trips cfg updates).Perm trips := by
  unfold sortTrips
  cases cfg.field with
  | none => rfl
  | some f => exact sortByLE_perm _ trips

/-- `sortedTrips` (line 208): the filtered trips in sorted order — the
rows the table renders. -/
def sortedTrips (trips : List Trip) (updates : String → List TripUpdate)
    (search statusFilter projectFilter : String) (cfg : SortConfig) :
    List Trip :=
  sortTrips (filteredTrips trips updates search statusFilter projectFilter)
    cfg updates

/-- The ids of a list of trips. -/
def tripIds (l : List Trip) : List String := l.map (fun t => t.id)

theorem sortedTrips_sub (trips : List Trip)
    (updates : String → List TripUpdate)
    (search statusFilter projectFilter : String) (cfg : SortConfig) :
    ∀ t ∈ sortedTrips trips updates search statusFilter projectFilter cfg,
      t ∈ trips := by
  intro t ht
  have hperm := sortTrips_perm
    (filteredTrips trips updates search statusFilter projectFilter)
    cfg updates
  exact List.mem_of_mem_filter (hperm.mem_iff.mp ht)

/-! ### Selection model -/

/-- `handleSelectAll` (lines 126-132): checked replaces the selection
with the ids of the currently filtered trips (a JS `Set` built from
`filteredTrips.map(trip => trip.id)`); unchecked empties it. -/
def handleSelectAll (filtered : List Trip) (checked : Bool) : Finset String :=
  if checked then (tripIds filtered).toFinset else ∅

/-- C8: checked select-all selects exactly the ids of the
filtered-and-sorted view (the sort stage permutes the filtered list,
so the id set of the view equals the id set `handleSelectAll` builds
from `filteredTrips`); every selected id belongs to a visible trip,
hence to the collection; and unchecked select-all empties the
selection. -/
theorem c8_select_all (trips : List Trip)
    (updates : String → List TripUpdate)
    (search statusFilter projectFilter : String) (cfg : SortConfig) :
    handleSelectAll (filteredTrips trips updates search statusFilter
        projectFilter) true =
      (tripIds (sortedTrips trips updates search statusFilter projectFilter
        cfg)).toFinset ∧
    (∀ x ∈ handleSelectAll (filteredTrips trips updates search statusFilter
        projectFilter) true, x ∈ tripIds trips) ∧
    handleSelectAll (filteredTrips trips updates search statusFilter
        projectFilter) false = ∅ := by
  refine ⟨?_, ?_, rfl⟩
  · unfold handleSelectAll sortedTrips
    rw [if_pos rfl]
    exact (List.toFinset_eq_of_perm _ _
      ((sortTrips_perm _ cfg updates).map (fun t => t.id))).symm
  · intro x hx
    unfold handleSelectAll at hx
    rw [if_pos rfl, List.mem_toFinset] at hx
    unfold tripIds at hx ⊢
    obtain ⟨t, ht, rfl⟩ := List.mem_map.mp hx
    exact List.mem_map.mpr ⟨t, List.mem_of_mem_filter ht, rfl⟩

/-- The default sort configuration (`{ field: null, direction: 'asc' }`,
lines 41-44). -/
def cfg0 : SortConfig := { field := none, direction := .asc }

/-- C8 (witness): over `[tripA, tripB]` with the project filter
`"ProjX"` active, checked select-all selects only the visible subset
(`tripA`), and unchecked select-all clears the selection. -/
theorem c8_select_all_witness :
    handleSelectAll (filteredTrips [tripA, tripB] updatesA "" "all"
        "ProjX") true =
      (tripIds (sortedTrips [tripA, tripB] updatesA "" "all" "ProjX"
        cfg0)).toFinset ∧
    (∀ x ∈ handleSelectAll (filteredTrips [tripA, tripB] updatesA "" "all"
        "ProjX") true, x ∈ tripIds [tripA, tripB]) ∧
    handleSelectAll (filteredTrips [tripA, tripB] updatesA "" "all"
        "ProjX") false = ∅ :=
  c8_select_all [tripA, tripB] updatesA "" "all" "ProjX" cfg0

/-- JS runtime failures the selection handler can raise: reading a
field of `undefined`. -/
inductive JsError where
  | typeError
deriving DecidableEq, Repr

/-- The one field of `React.MouseEvent` the handler reads. -/
structure MouseEvent where
  shiftKey : Bool
deriving DecidableEq, Repr

/-- JS `l.slice(start, stop)` for `start ≤ stop` within bounds (the
clamping cases cannot arise from `Math.min`/`Math.max` of valid
indices). -/
def jsSlice {α : Type} (l : List α) (start stop : Nat) : List α :=
  (l.drop start).take (stop - start)

/-- The `forEach` loop of the range branch (lines 140-146): add every
trip id of `ts` to `sel` when checked, remove them when unchecked. -/
def applySel (checked : Bool) (sel : Finset String) (ts : List Trip) :
    Finset String :=
  ts.foldl (fun s t => if checked then insert t.id s else s.erase t.id) sel

/-- `handleSelectTrip` (lines 134-159). The `event` parameter is
declared optional (`event?: React.MouseEvent`) but line 135 reads
`event.shiftKey` unconditionally, so a missing event is a thrown
`TypeError`. With an event present: if `event.shiftKey &&
lastSelectedIndex !== null`, the checked state is applied to
`sortedTrips.slice(start, end + 1)` and the anchor is left unchanged;
otherwise the single id is toggled and the anchor becomes `index`. -/
def handleSelectTrip (view : List Trip) (sel : Finset String)
    (anchor : Option Nat) (tripId : String) (checked : Bool) (index : Nat)
    (event : Option MouseEvent) :
    Except JsError (Finset String × Option Nat) :=
  match event with
  | none => .error .typeError
  | some e =>
    match e.shiftKey, anchor with
    | true, some a =>
        .ok (applySel checked sel
          (jsSlice view (min a index) (max a index + 1)), some a)
    | true, none =>
        .ok ((if checked then insert tripId sel else sel.erase tripId),
          some index)
    | false, _ =>
        .ok ((if checked then insert tripId sel else sel.erase tripId),
          some index)

theorem applySel_mem_true (ts : List Trip) (sel : Finset String)
    (x : String) :
    x ∈ applySel true sel ts ↔ x ∈ sel ∨ x ∈ tripIds ts := by
  induction ts generalizing sel with
  | nil => simp [applySel, tripIds]
  | cons t ts ih =>
    show x ∈ applySel true (insert t.id sel) ts ↔ _
    rw [ih]
    simp only [Finset.mem_insert, tripIds, List.map_cons, List.mem_cons]
    tauto

theorem applySel_mem_false (ts : List Trip) (sel : Finset String)
    (x : String) :
    x ∈ applySel false sel ts ↔ x ∈ sel ∧ x ∉ tripIds ts := by
  induction ts generalizing sel with
  | nil => simp [applySel, tripIds]
  | cons t ts ih =>
    show x ∈ applySel false (sel.erase t.id) ts ↔ _
    rw [ih]
    simp only [Finset.mem_erase, tripIds, List.map_cons, List.mem_cons]
    constructor
    · rintro ⟨⟨hne, hs⟩, hni⟩
      exact ⟨hs, by rintro (h | h); exact hne h; exact hni h⟩
    · rintro ⟨hs, hni⟩
      exact ⟨⟨fun h => hni (Or.inl h), hs⟩, fun h => hni (Or.inr h)⟩

theorem jsSlice_get_mem {α : Type} (l : List α) (a b i : Nat) (h1 : a ≤ i)
    (h2 : i ≤ b) (h3 : i < l.length) :
    l.get ⟨i, h3⟩ ∈ jsSlice l a (b + 1) := by
  unfold jsSlice
  have hlen : i - a < ((l.drop a).take (b + 1 - a)).length := by
    rw [List.length_take, List.length_drop]
    omega
  have hmem := List.getElem_mem hlen
  rw [List.getElem_take, List.getElem_drop] at hmem
  have hi : a + (i - a) = i := by omega
  rw [List.get_eq_getElem]
  simpa [hi] using hmem

/-- The four-trip view used by the range-selection scenario. -/
def view4 : List Trip := [tripA, tripB, tripC, tripD]

/-- C5: with the shift modifier and a prior anchor `a`, the toggle
applies the checked state to every view row between `a` and `index`
inclusive (checked rows become selected, unchecked rows deselected)
and the anchor stays `a`; a plain (non-range) toggle — no shift, or no
anchor — toggles the single id and always moves the anchor to
`index`. -/
theorem c5_range_select (view : List Trip) (sel : Finset String)
    (a index : Nat) (tripId : String) (checked : Bool) (e : MouseEvent)
    (sel' : Finset String) (anc' : Option Nat) :
    (e.shiftKey = true →
      handleSelectTrip view sel (some a) tripId checked index (some e) =
        .ok (sel', anc') →
      anc' = some a ∧
      ∀ i, min a index ≤ i → i ≤ max a index → ∀ h : i < view.length,
        (checked = true → (view.get ⟨i, h⟩).id ∈ sel') ∧
        (checked = false → (view.get ⟨i, h⟩).id ∉ sel')) ∧
    (∀ anchor : Option Nat, e.shiftKey = false ∨ anchor = none →
      handleSelectTrip view sel anchor tripId checked index (some e) =
        .ok ((if checked then insert tripId sel else sel.erase tripId),
          some index)) := by
  obtain ⟨sk⟩ := e
  constructor
  · intro hsk heq
    subst hsk
    unfold handleSelectTrip at heq
    injection heq with heq
    injection heq with heq1 heq2
    subst heq1
    subst heq2
    refine ⟨rfl, ?_⟩
    intro i hlo hhi h
    have hmem := jsSlice_get_mem view (min a index) (max a index) i hlo hhi h
    constructor
    · rintro rfl
      exact (applySel_mem_true _ _ _).mpr
        (Or.inr (List.mem_map.mpr ⟨view.get ⟨i, h⟩, hmem, rfl⟩))
    · rintro rfl
      intro hin
      exact ((applySel_mem_false _ _ _).mp hin).2
        (List.mem_map.mpr ⟨view.get ⟨i, h⟩, hmem, rfl⟩)
  · intro anchor hcond
    cases sk with
    | false => cases anchor <;> rfl
    | true =>
      rcases hcond with h | h
      · cases h
      · subst h
        rfl

/-- C5 (witness, Scenario E): on the four-row view with anchor 0
(set by plainly selecting row 0), shift-toggling row 3 with the
checked state selects the trips at view indices 0 through 3. -/
theorem c5_range_select_witness :
    "1" ∈ applySel true {"1"} (jsSlice view4 (min 0 3) (max 0 3 + 1)) ∧
    "2" ∈ applySel true {"1"} (jsSlice view4 (min 0 3) (max 0 3 + 1)) ∧
    "3" ∈ applySel true {"1"} (jsSlice view4 (min 0 3) (max 0 3 + 1)) ∧
    "4" ∈ applySel true {"1"} (jsSlice view4 (min 0 3) (max 0 3 + 1)) := by
  have h := (c5_range_select view4 {"1"} 0 3 "4" true ⟨true⟩
      (applySel true {"1"} (jsSlice view4 (min 0 3) (max 0 3 + 1)))
      (some 0)).1 rfl rfl
  exact ⟨(h.2 0 (by omega) (by omega) (by decide)).1 rfl,
         (h.2 1 (by omega) (by omega) (by decide)).1 rfl,
         (h.2 2 (by omega) (by omega) (by decide)).1 rfl,
         (h.2 3 (by omega) (by omega) (by decide)).1 rfl⟩

/-- C10: `handleSelectTrip` dereferences its optional `event` argument
unconditionally, so invoking it without an event fails with a
`TypeError` instead of performing a plain toggle; a plain toggle
happens exactly on the invocations that supply an event whose shift
modifier is unset, or supply an event when no anchor exists. -/
theorem c10_optional_event_deref (view : List Trip) (sel : Finset String)
    (anchor : Option Nat) (tripId : String) (checked : Bool)
    (index : Nat) :
    handleSelectTrip view sel anchor tripId checked index none =
      .error .typeError ∧
    (∀ e : MouseEvent, e.shiftKey = false ∨ anchor = none →
      handleSelectTrip view sel anchor tripId checked index (some e) =
        .ok ((if checked then insert tripId sel else sel.erase tripId),
          some index)) := by
  refine ⟨rfl, ?_⟩
  rintro ⟨sk⟩ hcond
  cases sk with
  | false => cases anchor <;> rfl
  | true =>
    rcases hcond with h | h
    · cases h
    · subst h
      rfl

/-- C10 (witness): instantiated on the four-row view with an empty
selection and anchor 2. -/
theorem c10_optional_event_deref_witness :
    handleSelectTrip view4 ∅ (some 2) "1" true 0 none =
      .error .typeError ∧
    (∀ e : MouseEvent, e.shiftKey = false ∨ (some 2 : Option Nat) = none →
      handleSelectTrip view4 ∅ (some 2) "1" true 0 (some e) =
        .ok ((if true then insert "1" (∅ : Finset String)
          else Finset.erase ∅ "1"), some 0)) :=
  c10_optional_event_deref view4 ∅ (some 2) "1" true 0

/-! ### Deletion (`handleDelete`) and the component state -/

/-- The pieces of `TripList` component state the delete and selection
handlers interact with. -/
structure TripListState where
  trips : List Trip
  selectedTrips : Finset String
  lastSelectedIndex : Option Nat
  selectedTrip : Option Trip
  showDeleteModal : Bool
deriving DecidableEq

/-- `tripsToDelete` (lines 163-165): the selected id set when nonempty,
otherwise the detail-panel trip's id — `[selectedTrip?.id].filter(Boolean)`
drops both a missing trip and a falsy (empty-string) id. The JS value is
an array consumed only by membership tests (`.in`, `.includes`), so it
is modelled by its id set. -/
def tripsToDelete (sel : Finset String) (selTrip : Option Trip) :
    Finset String :=
  if 0 < sel.card then sel
  else
    match selTrip with
    | some t => if t.id = "" then ∅ else {t.id}
    | none => ∅

/-- `handleDelete` (lines 161-188). A backend error is thrown before
any state update, so the catch block leaves every piece of state
unchanged; on success the matching trips are filtered out of the
collection, the selection is emptied, the detail panel closes and the
modal is dismissed. -/
def handleDelete (st : TripListState) (backendOk : Bool) : TripListState :=
  if backendOk then
    { trips := st.trips.filter (fun t =>
        !(decide (t.id ∈ tripsToDelete st.selectedTrips st.selectedTrip))),
      selectedTrips := ∅,
      lastSelectedIndex := st.lastSelectedIndex,
      selectedTrip := none,
      showDeleteModal := false }
  else st

/-- C4: when the backend delete fails, the trip collection and the
selection set (indeed the whole state) are unchanged; when it
succeeds, exactly the trips whose ids are in `tripsToDelete` are
removed from the in-memory collection and the selection set is emptied
immediately. -/
theorem c4_delete_state (st : TripListState) (backendOk : Bool) :
    (backendOk = false →
      (handleDelete st backendOk).trips = st.trips ∧
      (handleDelete st backendOk).selectedTrips = st.selectedTrips) ∧
    (backendOk = true →
      (∀ t, t ∈ (handleDelete st backendOk).trips ↔
        t ∈ st.trips ∧
          t.id ∉ tripsToDelete st.selectedTrips st.selectedTrip) ∧
      (handleDelete st backendOk).selectedTrips = ∅) := by
  constructor
  · rintro rfl
    exact ⟨rfl, rfl⟩
  · rintro rfl
    refine ⟨?_, rfl⟩
    intro t
    unfold handleDelete
    simp [List.mem_filter]

/-- The initial component state over the collection `[tripA, tripB]`
with `tripA` selected. -/
def stateAB : TripListState :=
  { trips := [tripA, tripB], selectedTrips := {"1"},
    lastSelectedIndex := some 0, selectedTrip := none,
    showDeleteModal := true }

/-- C4 (witness): instantiated on `stateAB` for both a failing and a
succeeding backend delete. -/
theorem c4_delete_state_witness :
    ((handleDelete stateAB false).trips = stateAB.trips ∧
     (handleDelete stateAB false).selectedTrips = stateAB.selectedTrips) ∧
    ((∀ t, t ∈ (handleDelete stateAB true).trips ↔
        t ∈ stateAB.trips ∧
          t.id ∉ tripsToDelete stateAB.selectedTrips stateAB.selectedTrip) ∧
     (handleDelete stateAB true).selectedTrips = ∅) :=
  ⟨(c4_delete_state stateAB false).1 rfl,
   (c4_delete_state stateAB true).2 rfl⟩

/-! ### Claim C9: the selection invariant -/

/-- The selection invariant: every selected id is the id of a trip in
the full collection. -/
def SelInv (s : TripListState) : Prop :=
  ∀ x ∈ s.selectedTrips, x ∈ tripIds s.trips

/-- One user operation on the trip-list state. A toggle passes the id
and index of a row of the current sorted view (line 363:
`handleSelectTrip(trip.id, checked, index, event)` with
`trip = sortedTrips[index]`), under whatever filter and sort state is
current; the delete constructor covers both backend outcomes. -/
inductive Step : TripListState → TripListState → Prop where
  | toggle (s : TripListState) (updates : String → List TripUpdate)
      (search statusFilter projectFilter : String) (cfg : SortConfig)
      (checked : Bool) (index : Nat) (e : MouseEvent)
      (sel' : Finset String) (anc' : Option Nat)
      (hidx : index < (sortedTrips s.trips updates search statusFilter
        projectFilter cfg).length)
      (hres : handleSelectTrip
        (sortedTrips s.trips updates search statusFilter projectFilter cfg)
        s.selectedTrips s.lastSelectedIndex
        ((sortedTrips s.trips updates search statusFilter projectFilter
          cfg).get ⟨index, hidx⟩).id
        checked index (some e) = .ok (sel', anc')) :
      Step s { s with selectedTrips := sel', lastSelectedIndex := anc' }
  | selectAll (s : TripListState) (updates : String → List TripUpdate)
      (search statusFilter projectFilter : String) (checked : Bool) :
      Step s { s with selectedTrips :=
        handleSelectAll (filteredTrips s.trips updates search statusFilter
          projectFilter) checked }
  | del (s : TripListState) (backendOk : Bool) :
      Step s (handleDelete s backendOk)

theorem jsSlice_sub {α : Type} (l : List α) (a b : Nat) :
    ∀ x ∈ jsSlice l a b, x ∈ l := by
  intro x hx
  exact List.mem_of_mem_drop (List.mem_of_mem_take hx)

theorem step_preserves_selInv (s s' : TripListState) (h : Step s s')
    (hinv : SelInv s) : SelInv s' := by
  cases h with
  | toggle updates search statusFilter projectFilter cfg checked index e
      sel' anc' hidx hres =>
    intro x hx
    obtain ⟨sk⟩ := e
    show x ∈ tripIds s.trips
    cases sk with
    | true =>
      cases hanc : s.lastSelectedIndex with
      | some a =>
        rw [hanc] at hres
        unfold handleSelectTrip at hres
        injection hres with hres
        injection hres with hres1 _
        subst hres1
        cases checked with
        | true =>
          rcases (applySel_mem_true _ _ _).mp hx with hold | hnew
          · exact hinv x hold
          · obtain ⟨t, ht, rfl⟩ := List.mem_map.mp hnew
            have := sortedTrips_sub s.trips updates search statusFilter
              projectFilter cfg t (jsSlice_sub _ _ _ t ht)
            exact List.mem_map.mpr ⟨t, this, rfl⟩
        | false =>
          exact hinv x ((applySel_mem_false _ _ _).mp hx).1
      | none =>
        rw [hanc] at hres
        unfold handleSelectTrip at hres
        injection hres with hres
        injection hres with hres1 _
        subst hres1
        cases checked with
        | true =>
          rcases Finset.mem_insert.mp hx with rfl | hold
          · have hmem := List.get_mem (sortedTrips s.trips updates search
              statusFilter projectFilter cfg) index hidx
            have := sortedTrips_sub s.trips updates search statusFilter
              projectFilter cfg _ hmem
            exact List.mem_map.mpr ⟨_, this, rfl⟩
          · exact hinv x hold
        | false =>
          exact hinv x (Finset.mem_of_mem_erase hx)
    | false =>
      cases hanc : s.lastSelectedIndex with
      | some a =>
        rw [hanc] at hres
        unfold handleSelectTrip at hres
        injection hres with hres
        injection hres with hres1 _
        subst hres1
        cases checked with
        | true =>
          rcases Finset.mem_insert.mp hx with rfl | hold
          · have hmem := List.get_mem (sortedTrips s.trips updates search
              statusFilter projectFilter cfg) index hidx
            have := sortedTrips_sub s.trips updates search statusFilter
              projectFilter cfg _ hmem
            exact List.mem_map.mpr ⟨_, this, rfl⟩
          · exact hinv x hold
        | false =>
          exact hinv x (Finset.mem_of_mem_erase hx)
      | none =>
        rw [hanc] at hres
        unfold handleSelectTrip at hres
        injection hres with hres
        injection hres with hres1 _
        subst hres1
        cases checked with
        | true =>
          rcases Finset.mem_insert.mp hx with rfl | hold
          · have hmem := List.get_mem (sortedTrips s.trips updates search
              statusFilter projectFilter cfg) index hidx
            have := sortedTrips_sub s.trips updates search statusFilter
              projectFilter cfg _ hmem
            exact List.mem_map.mpr ⟨_, this, rfl⟩
          · exact hinv x hold
        | false =>
          exact hinv x (Finset.mem_of_mem_erase hx)
  | selectAll updates search statusFilter projectFilter checked =>
    intro x hx
    show x ∈ tripIds s.trips
    cases checked with
    | true =>
      have hx' : x ∈ (tripIds (filteredTrips s.trips updates search
          statusFilter projectFilter)).toFinset := hx
      rw [List.mem_toFinset] at hx'
      obtain ⟨t, ht, rfl⟩ := List.mem_map.mp hx'
      exact List.mem_map.mpr ⟨t, List.mem_of_mem_filter ht, rfl⟩
    | false =>
      exact absurd hx (Finset.not_mem_empty x)
  | del backendOk =>
    intro x hx
    cases backendOk with
    | true => exact absurd hx (Finset.not_mem_empty x)
    | false => exact hinv x hx

/-- C9: starting from an empty selection, any sequence of toggle,
select-all/clear-all, range-select and delete operations keeps the
selection a subset of the ids in the full trip collection; moreover a
successful delete step empties the selection outright, so no entry of
a deleted trip survives in it. -/
theorem c9_selection_invariant (s₀ s : TripListState)
    (hempty : s₀.selectedTrips = ∅)
    (hsteps : Relation.ReflTransGen Step s₀ s) :
    SelInv s ∧ (handleDelete s true).selectedTrips = ∅ := by
  refine ⟨?_, rfl⟩
  induction hsteps with
  | refl =>
    intro x hx
    rw [hempty] at hx
    exact absurd hx (Finset.not_mem_empty x)
  | tail hsteps hstep ih => exact step_preserves_selInv _ _ hstep ih

/-- The empty-selection initial state over `[tripA, tripB]`. -/
def state0 : TripListState :=
  { trips := [tripA, tripB], selectedTrips := ∅,
    lastSelectedIndex := none, selectedTrip := none,
    showDeleteModal := false }

/-- The state after one checked select-all step from `state0`. -/
def state1 : TripListState :=
  { state0 with selectedTrips :=
      (handleSelectAll (filteredTrips state0.trips updatesA "" "all" "all")
        true) }

/-- C9 (witness): after one checked select-all step from the empty
state, the invariant holds. -/
theorem c9_selection_invariant_witness :
    SelInv state1 ∧ (handleDelete state1 true).selectedTrips = ∅ :=
  c9_selection_invariant state0 state1 rfl
    (by
      exact Relation.ReflTransGen.single
        (Step.selectAll state0 updatesA "" "all" "all" true))
